import Mathlib

/-!
# ContractAnalysisAI front end: view-state core

A shallow embedding of the client-side orchestration code of
`contract-frontend/src` (React components written in JavaScript):

* `components/ClauseCard.jsx` and the clause list of `pages/AnalysisPage.jsx`
  (the clause/risk join),
* `components/RiskCharts.jsx` (the risk tally),
* `pages/AnalysisPage.jsx` (the three concurrent fetches of a session),
* `components/UploadCard.jsx` and `pages/UploadPage.jsx` (upload, then ingest),
* `components/AgentChat.jsx` (the chat transcript).

React state is modelled as a record, one field per `useState` cell.  An `async`
handler is split at its `await`s: the part before the `await` is one function,
each continuation is another one, and the suspended invocations are kept in
the state together with the values their closures captured.  JavaScript strings
are `String`, the backend's JSON objects are records whose optional fields are
`Option`s.
-/

namespace ContractAnalysis

/-! ## Data supplied by the backend -/

/-- An element of the list answered by `GET /clauses/{docId}`. -/
structure Clause where
  id : String
  text : String
deriving DecidableEq, Repr

/-- An element of the list answered by `GET /risks/{docId}`.  The level is the
string the backend sent; the front end never validates it. -/
structure RiskAnnotation where
  clause_id : String
  level : String
deriving DecidableEq, Repr

/-- An element of the list answered by `GET /recommend/{docId}`. -/
structure Recommendation where
  original_text : Option String
  suggested_text : String
  diff : String
  why : Option String
deriving DecidableEq, Repr

/-! ## `ClauseCard.jsx` and the clause list of `AnalysisPage.jsx` -/

/-- What `ClauseCard` renders: the clause (heading and paragraph) and the level
used for the `risk-<level>` class and for the badge. -/
structure Card where
  clause : Clause
  level : String
deriving DecidableEq, Repr

/-- `ClauseCard.jsx`, line 6:
`const risk = risks.find((r) => r.clause_id === clause.id) || { level: "low" }`.
`Array.prototype.find` answers the first element satisfying the predicate or
`undefined`; an annotation object is truthy, so `||` takes the default only
when nothing was found. -/
def ClauseCard (clause : Clause) (risks : List RiskAnnotation) : Card :=
  let risk_level :=
    match risks.find? (fun r => r.clause_id == clause.id) with
    | some r => r.level
    | none => "low"
  { clause := clause, level := risk_level }

/-- `AnalysisPage.jsx`, lines 46-48:
`clauses.map((clause, idx) => <ClauseCard key={idx} clause={clause} risks={risks} />)`. -/
def joinedClauses (clauses : List Clause) (risks : List RiskAnnotation) : List Card :=
  clauses.map (fun clause => ClauseCard clause risks)

/-! ## `RiskCharts.jsx` -/

/-- A value held by a property of the tally object: a number, or the string
that `+ 1` makes of a value that is not a number. -/
inductive JsVal where
  | num (n : Nat)
  | str (s : String)
deriving DecidableEq, Repr

/-- The own properties of the tally object, in the order of their creation.
(JavaScript enumerates integer-like keys first; the code never enumerates the
object, it reads `low`, `medium` and `high`.) -/
abbrev Counts := List (String × JsVal)

/-- The properties that every object inherits from `Object.prototype`, each with
the text that `+` makes of its value: `[object Object]` for the prototype object
behind `__proto__`, and the source text of a built-in function for the others
(as V8 prints it). -/
def inheritedText (k : String) : Option String :=
  if k == "__proto__" then some "[object Object]"
  else if k == "constructor" then some "function Object() \x7b [native code] \x7d"
  else if ["__defineGetter__", "__defineSetter__", "hasOwnProperty", "__lookupGetter__",
      "__lookupSetter__", "isPrototypeOf", "propertyIsEnumerable", "toString", "valueOf",
      "toLocaleString"].contains k then
    some ("function " ++ k ++ "() \x7b [native code] \x7d")
  else none

/-- The own property `k` of the object, `none` when there is none.  For `low`,
`medium` and `high`, which `Object.prototype` does not define, this is the
property read `counts.low`, with `none` for `undefined`. -/
def Counts.get (acc : Counts) (k : String) : Option JsVal :=
  (acc.find? (fun p => p.1 == k)).map (fun p => p.2)

/-- The expression `(acc[k] || 0) + 1`: an own property first, then an inherited
one, then `undefined`.  A number `n` gives `n + 1` (also for the falsy `0`), the
empty string is falsy and gives `1`, any other string and every inherited value
is truthy and `+ 1` appends the character `1` to its text. -/
def Counts.bump (acc : Counts) (k : String) : JsVal :=
  match acc.get k with
  | some (JsVal.num n) => JsVal.num (n + 1)
  | some (JsVal.str t) => if t = "" then JsVal.num 1 else JsVal.str (t ++ "1")
  | none =>
    match inheritedText k with
    | some t => JsVal.str (t ++ "1")
    | none => JsVal.num 1

/-- Property write `acc[k] = v` of a number or a string: an existing own property
keeps its place, a new one is added last, and a write to `__proto__` of a value
that is not an object is ignored by the setter of `Object.prototype`. -/
def Counts.set (acc : Counts) (k : String) (v : JsVal) : Counts :=
  if k == "__proto__" then acc
  else if acc.any (fun p => p.1 == k) then
    acc.map (fun p => if p.1 == k then (k, v) else p)
  else
    acc ++ [(k, v)]

/-- `RiskCharts.jsx`, lines 8-14:
`risks.reduce((acc, r) => { acc[r.level] = (acc[r.level] || 0) + 1; return acc; },
{ low: 0, medium: 0, high: 0 })`. -/
def aggregateRiskCounts (risks : List RiskAnnotation) : Counts :=
  risks.foldl
    (fun acc r => acc.set r.level (acc.bump r.level))
    [("low", JsVal.num 0), ("medium", JsVal.num 0), ("high", JsVal.num 0)]

/-- `RiskCharts.jsx`, lines 16-20: the chart rows read `counts.low`,
`counts.medium` and `counts.high`. -/
def chartData (counts : Counts) : List (String × Option JsVal) :=
  [("Low", counts.get "low"), ("Medium", counts.get "medium"), ("High", counts.get "high")]

/-- The levels of the data model: `low`, `medium`, `high`. -/
def isLevel (s : String) : Bool :=
  s == "low" || s == "medium" || s == "high"

/-! ## `services/api.js` -/

/-- The browser `File` chosen in the file input; only its name is ever read. -/
structure File where
  name : String
deriving DecidableEq, Repr

/-- One HTTP request of the axios client of `api.js` (`baseURL` left out). -/
inductive Request where
  | post_sanitize (file : File)
  | post_ingest (document_id : Option String) (tenant_id : String)
  | get_clauses (docId : String)
  | get_risks (docId : String)
  | get_recommend (docId : String)
deriving DecidableEq, Repr

/-- `api.js`, lines 8-15: `API.post("/sanitize", formData, ...)` with the file
in the form field `file`. -/
def uploadContract (file : File) : Request :=
  Request.post_sanitize file

/-- `api.js`, lines 17-21: `API.post("/ingest", { document_id, tenant_id })`. -/
def ingestContract (document_id : Option String) (tenant_id : String) : Request :=
  Request.post_ingest document_id tenant_id

/-- `api.js`, lines 24-27. -/
def getClauses (docId : String) : Request :=
  Request.get_clauses docId

/-- `api.js`, lines 29-32. -/
def getRisks (docId : String) : Request :=
  Request.get_risks docId

/-- `api.js`, lines 34-37. -/
def getRecommendations (docId : String) : Request :=
  Request.get_recommend docId

/-- How an awaited promise settles: with the response body (`res.data`) or
with a thrown error. -/
inductive Settled (α : Type) where
  | fulfilled (value : α)
  | rejected (reason : String)
deriving DecidableEq, Repr

/-- `Promise.all([p, q, r])`: fulfilled with the three values when all three are
fulfilled, rejected as soon as one is rejected.  The reason kept here is the
leftmost one; the callers below only log it. -/
def promiseAll3 {α β γ : Type} :
    Settled α → Settled β → Settled γ → Settled (α × β × γ)
  | .fulfilled a, .fulfilled b, .fulfilled c => .fulfilled (a, b, c)
  | .rejected e, _, _ => .rejected e
  | .fulfilled _, .rejected e, _ => .rejected e
  | .fulfilled _, .fulfilled _, .rejected e => .rejected e

/-! ## `pages/AnalysisPage.jsx` -/

/-- The state cells of `AnalysisPage` (lines 11-16), the `fetchData` invocations
that are suspended at `await Promise.all(...)` (each with the `docId` its closure
captured), and the requests issued so far. -/
structure AnalysisPage where
  docId : String
  clauses : List Clause
  risks : List RiskAnnotation
  recommendations : List Recommendation
  loading : Bool
  inflight : List String
  requests : List Request
deriving DecidableEq, Repr

namespace AnalysisPage

/-- The three calls inside `Promise.all`, lines 21-25, all started before the
`await`. -/
def fetchRequests (docId : String) : List Request :=
  [getClauses docId, getRisks docId, getRecommendations docId]

/-- First render at `/analysis/:docId`: the `useState` initial values and the
first run of the effect of lines 18-36. -/
def mount (docId : String) : AnalysisPage :=
  { docId := docId, clauses := [], risks := [], recommendations := [],
    loading := true, inflight := [docId], requests := fetchRequests docId }

/-- The route parameter changes while the page stays mounted: the cells keep
their values and, the dependency list being `[docId]`, the effect runs again
when the identifier differs.  The effect returns no clean-up function. -/
def changeDoc (s : AnalysisPage) (docId : String) : AnalysisPage :=
  if docId = s.docId then s
  else
    { s with docId := docId, inflight := s.inflight ++ [docId],
             requests := s.requests ++ fetchRequests docId }

/-- The rest of `fetchData` (lines 26-33) for the invocation started for `d`,
once its three requests have settled: on success the three setters, on failure
only `console.error`, and `setLoading(false)` in the `finally` block. -/
def fetchSettled (s : AnalysisPage) (d : String)
    (c : Settled (List Clause)) (r : Settled (List RiskAnnotation))
    (rec : Settled (List Recommendation)) : AnalysisPage :=
  if d ∈ s.inflight then
    match promiseAll3 c r rec with
    | .fulfilled (c, r, rec) =>
      { s with clauses := c, risks := r, recommendations := rec, loading := false,
               inflight := s.inflight.erase d }
    | .rejected _ =>
      { s with loading := false, inflight := s.inflight.erase d }
  else s

/-- What the page shows (lines 38-65): the loading heading, or the cards, the
chart rows and the identifier handed to the chat and to the diff viewer. -/
inductive Rendered where
  | loadingHeading
  | analysis (cards : List Card) (chart : List (String × Option JsVal)) (docId : String)
deriving DecidableEq, Repr

/-- Lines 38-65. -/
def render (s : AnalysisPage) : Rendered :=
  if s.loading then Rendered.loadingHeading
  else Rendered.analysis (joinedClauses s.clauses s.risks)
    (chartData (aggregateRiskCounts s.risks)) s.docId

/-- The view state proper: the four `useState` cells and the identifier. -/
def view (s : AnalysisPage) :
    String × List Clause × List RiskAnnotation × List Recommendation × Bool :=
  (s.docId, s.clauses, s.risks, s.recommendations, s.loading)

end AnalysisPage

/-! ## `pages/UploadPage.jsx` and `components/UploadCard.jsx` -/

/-- Body of the answer of `POST /sanitize`, an object with a boolean `ok`. -/
structure UploadAck where
  ok : Bool
  document_id : Option String
deriving DecidableEq, Repr

/-- An object answered by `POST /ingest`.  The body `res.data` itself is an
`Option IngestResp` below, `none` standing for a body that is `null` or
`undefined`. -/
structure IngestResp where
  document_id : Option String
  chunks : Option Nat
deriving DecidableEq, Repr

namespace UploadPage

/-- A call `navigate(path, { state: { analysis } })`. -/
structure Navigation where
  path : String
  analysis : IngestResp
deriving DecidableEq, Repr

/-- Truthiness of an optional string: `undefined` and `""` are falsy. -/
def truthy : Option String → Bool
  | none => false
  | some v => v != ""

/-- `UploadPage.jsx`, lines 8-14, `handleSuccess`.  Reading `data.document_id` of
`null` or `undefined` throws a `TypeError`; on an object the navigation happens
only `if (data.document_id)`. -/
def handleSuccess : Option IngestResp → Except String (Option Navigation)
  | none => Except.error "TypeError"
  | some data =>
    match data.document_id with
    | some id =>
      if truthy (some id) then
        Except.ok (some { path := "/analysis/" ++ id, analysis := data })
      else Except.ok none
    | none => Except.ok none

end UploadPage

/-- Where a suspended invocation of `handleUpload` stands: at
`await uploadContract(file)` (line 24) or at `await ingestContract(...)` (line 32). -/
inductive Awaiting where
  | upload
  | ingest
deriving DecidableEq, Repr

/-- The state cells of `UploadCard` (lines 6-8); `disabled`, the attribute of the
button as the last committed render set it (line 61); the suspended
`handleUpload` invocations; the requests issued so far; the payloads handed to
`onUploadSuccess` so far and the navigations that followed. -/
structure UploadCard where
  file : Option File
  loading : Bool
  error : String
  disabled : Bool
  inflight : List Awaiting
  requests : List Request
  delivered : List (Option IngestResp)
  navigations : List UploadPage.Navigation
deriving DecidableEq, Repr

namespace UploadCard

/-- Lines 6-8: the `useState` initial values, and the first render. -/
def init : UploadCard :=
  { file := none, loading := false, error := "", disabled := false, inflight := [],
    requests := [], delivered := [], navigations := [] }

/-- Lines 10-12: `setFile(e.target.files[0])`, which is `undefined` for an empty
selection. -/
def handleFileChange (s : UploadCard) (f : Option File) : UploadCard :=
  { s with file := f }

/-- A render is committed: line 61, `disabled={loading}`, takes the value the
cell has now. -/
def render (s : UploadCard) : UploadCard :=
  { s with disabled := s.loading }

/-- Lines 14-24, `handleUpload` up to its first `await`.  The handler does not
read `loading`. -/
def handleUpload (s : UploadCard) : UploadCard :=
  match s.file with
  | none => { s with error := "Please select a file first." }
  | some file =>
    { s with error := "", loading := true,
             requests := s.requests ++ [uploadContract file],
             inflight := s.inflight ++ [Awaiting.upload] }

/-- Lines 61-63: `<button onClick={handleUpload} disabled={loading}>`.  The button
dispatches no click while the attribute of the last committed render is set;
a click that comes before the next render still finds the old attribute. -/
def clickUpload (s : UploadCard) : UploadCard :=
  if s.disabled then s else handleUpload s

/-- Lines 39-43, the `catch` block. -/
def handleUpload_catch (s : UploadCard) (i : Nat) : UploadCard :=
  { s with error := "Upload/analysis failed. Try again.", loading := false,
           inflight := s.inflight.eraseIdx i }

/-- Lines 24-32: `handleUpload` resumes after `await uploadContract(file)` for the
suspended invocation number `i`; `throw` when `!uploadResp.ok`, otherwise the
ingest request with the fixed tenant. -/
def uploadSettled (s : UploadCard) (i : Nat) (r : Settled UploadAck) : UploadCard :=
  match s.inflight.get? i with
  | some Awaiting.upload =>
    match r with
    | .fulfilled uploadResp =>
      if !uploadResp.ok then handleUpload_catch s i
      else
        { s with requests := s.requests ++ [ingestContract uploadResp.document_id "demo_tenant"],
                 inflight := s.inflight.set i Awaiting.ingest }
    | .rejected _ => handleUpload_catch s i
  | _ => s

/-- Lines 32-38: `handleUpload` resumes after `await ingestContract(...)`:
`setLoading(false)`, then the callback with the ingest payload.  The prop
`onUploadSuccess` is set, `UploadPage` passes `handleSuccess` (line 20); the call
stands inside the `try`, so that a throw of the callback reaches the `catch`
block. -/
def ingestSettled (s : UploadCard) (i : Nat) (r : Settled (Option IngestResp)) : UploadCard :=
  match s.inflight.get? i with
  | some Awaiting.ingest =>
    match r with
    | .fulfilled ingestResp =>
      match UploadPage.handleSuccess ingestResp with
      | Except.ok nav =>
        { s with loading := false, delivered := s.delivered ++ [ingestResp],
                 navigations := s.navigations ++ nav.toList,
                 inflight := s.inflight.eraseIdx i }
      | Except.error _ =>
        handleUpload_catch { s with loading := false, delivered := s.delivered ++ [ingestResp] } i
    | .rejected _ => handleUpload_catch s i
  | _ => s

/-- What can happen to an `UploadCard`. -/
inductive Event where
  | fileChange (f : Option File)
  | click
  | render
  | uploadReply (i : Nat) (r : Settled UploadAck)
  | ingestReply (i : Nat) (r : Settled (Option IngestResp))
deriving DecidableEq, Repr

/-- One event applied to the card. -/
def step (s : UploadCard) : Event → UploadCard
  | .fileChange f => handleFileChange s f
  | .click => clickUpload s
  | .render => render s
  | .uploadReply i r => uploadSettled s i r
  | .ingestReply i r => ingestSettled s i r

/-- A sequence of events applied in order. -/
def run (s : UploadCard) (evs : List Event) : UploadCard :=
  evs.foldl step s

/-- The card of an attempt that waits for the ingest answer: `handleUpload` on `s`,
then the upload call answered by `ack`. -/
def awaitingIngest (s : UploadCard) (ack : UploadAck) : UploadCard :=
  uploadSettled (handleUpload s) 0 (.fulfilled ack)

/-- Every click in the sequence is directly followed by a render: the card
re-renders after each dispatch of the button before anything else happens. -/
def rendersAfterClick : List Event → Bool
  | [] => true
  | Event.click :: Event.render :: rest => rendersAfterClick rest
  | Event.click :: _ => false
  | _ :: rest => rendersAfterClick rest

/-- The invariant of a card that re-renders after each click: either nothing is
in flight and `loading` is off, or exactly one `handleUpload` is suspended,
`loading` is on and the button is disabled. -/
def Inv (s : UploadCard) : Prop :=
  (s.inflight = [] ∧ s.loading = false) ∨
  (∃ a, s.inflight = [a] ∧ s.loading = true ∧ s.disabled = true)

end UploadCard

/-! ## `components/AgentChat.jsx` -/

/-- A transcript entry `{ from, text }`; `origin` is the property `from`. -/
structure Entry where
  origin : String
  text : String
deriving DecidableEq, Repr

/-- The value `rec` awaited at line 18, read only through `rec.suggestion`. -/
structure Advice where
  suggestion : Option String
deriving DecidableEq, Repr

/-- The code points removed by `String.prototype.trim`: ECMAScript `WhiteSpace`
and `LineTerminator`. -/
def isJsWhiteSpace (c : Char) : Bool :=
  let n := c.toNat
  n == 0x09 || n == 0x0A || n == 0x0B || n == 0x0C || n == 0x0D || n == 0x20 ||
  n == 0xA0 || n == 0x1680 || (0x2000 ≤ n && n ≤ 0x200A) || n == 0x2028 ||
  n == 0x2029 || n == 0x202F || n == 0x205F || n == 0x3000 || n == 0xFEFF

/-- `String.prototype.trim`: white space removed at both ends. -/
def jsTrim (s : String) : String :=
  ⟨((s.data.dropWhile isJsWhiteSpace).reverse.dropWhile isJsWhiteSpace).reverse⟩

/-- The state cells of `AgentChat` (lines 6-9), the `newMsgs` captured by each
suspended `sendMessage`, and the requests issued so far. -/
structure AgentChat where
  docId : String
  messages : List Entry
  input : String
  inflight : List (List Entry)
  requests : List Request
deriving DecidableEq, Repr

namespace AgentChat

/-- Line 7, the entry every conversation starts with. -/
def greeting : Entry :=
  { origin := "agent", text := "Hi 👋 How can I help you with this contract?" }

/-- Lines 6-9: the `useState` initial values. -/
def init (docId : String) : AgentChat :=
  { docId := docId, messages := [greeting], input := "", inflight := [], requests := [] }

/-- Line 44: `onChange={(e) => setInput(e.target.value)}`. -/
def onChange (s : AgentChat) (value : String) : AgentChat :=
  { s with input := value }

/-- Lines 11-18, `sendMessage` up to its `await`: nothing for a blank input,
otherwise `newMsgs = [...messages, { from: "user", text: input }]`,
`setMessages(newMsgs)` and the request. -/
def sendMessage (s : AgentChat) : AgentChat :=
  if (jsTrim s.input).data.isEmpty then s
  else
    let newMsgs := s.messages ++ [{ origin := "user", text := s.input }]
    { s with messages := newMsgs, inflight := s.inflight ++ [newMsgs],
             requests := s.requests ++ [getRecommendations s.docId] }

/-- Lines 19-25: the entry appended once the request has settled,
`rec.suggestion || "Here’s my recommendation."` or the error text. -/
def agentEntry : Settled Advice → Entry
  | .fulfilled rec =>
    { origin := "agent",
      text := match rec.suggestion with
        | some v => if v != "" then v else "Here’s my recommendation."
        | none => "Here’s my recommendation." }
  | .rejected _ => { origin := "agent", text := "Error fetching advice." }

/-- Lines 18-27: `sendMessage` resumes for the suspended invocation number `i`:
`setMessages([...newMsgs, entry])` with the `newMsgs` of that invocation, then
`setInput("")`. -/
def replySettled (s : AgentChat) (i : Nat) (r : Settled Advice) : AgentChat :=
  match s.inflight.get? i with
  | some newMsgs =>
    { s with messages := newMsgs ++ [agentEntry r], input := "",
             inflight := s.inflight.eraseIdx i }
  | none => s

/-- Two calls of `sendMessage` on a fresh chat, the user typing `t1` and then
`t2`, the second call made while the first request is still awaited. -/
def twoCalls (docId t1 t2 : String) : AgentChat :=
  sendMessage (onChange (sendMessage (onChange (init docId) t1)) t2)

/-- Two calls of `sendMessage` on a fresh chat, the second one made after the
first request has settled with `r1`. -/
def twoCallsInTurn (docId t1 t2 : String) (r1 : Settled Advice) : AgentChat :=
  sendMessage (onChange (replySettled (sendMessage (onChange (init docId) t1)) 0 r1) t2)

end AgentChat

/-! ### The conversation contract in the words of the specification -/

/-- The text is empty or consists of white space only. -/
def isBlank (t : String) : Bool :=
  t.data.all isJsWhiteSpace

/-- What one `appendUserMessage` does when no other request is in flight: the
requests it issues, the transcript before the request is issued and the
transcript after the request has settled. -/
structure SendResult where
  requests : List Request
  beforeReply : List Entry
  afterReply : List Entry
deriving DecidableEq, Repr

/-- The text of the agent entry as the specification words it: the suggestion
text when present, the generic acknowledgment when absent, the error text when
the request fails. -/
def replyTextSpec : Settled Advice → String
  | .fulfilled ⟨some v⟩ => v
  | .fulfilled ⟨none⟩ => "Here’s my recommendation."
  | .rejected _ => "Error fetching advice."

/-- The text of the agent entry with an empty suggestion counted as absent. -/
def replyTextNonEmpty : Settled Advice → String
  | .fulfilled ⟨some v⟩ => if v = "" then "Here’s my recommendation." else v
  | .fulfilled ⟨none⟩ => "Here’s my recommendation."
  | .rejected _ => "Error fetching advice."

/-- The reference definition of `appendUserMessage`: a no-op on a blank text,
otherwise the user entry is appended, one reply request scoped to the document
is issued, and the agent entry follows the user entry once it settles. -/
def sendMessageSpec (replyText : Settled Advice → String) (docId : String)
    (T : List Entry) (t : String) (r : Settled Advice) : SendResult :=
  if isBlank t then { requests := [], beforeReply := T, afterReply := T }
  else
    { requests := [Request.get_recommend docId],
      beforeReply := T ++ [{ origin := "user", text := t }],
      afterReply := T ++ [{ origin := "user", text := t },
                          { origin := "agent", text := replyText r }] }

/-- What `sendMessage` does on a chat with nothing in flight, read off the
code: the requests added by the call, the transcript after the call and the
transcript after its continuation has run. -/
def sendMessageObserved (s : AgentChat) (r : Settled Advice) : SendResult :=
  { requests := (AgentChat.sendMessage s).requests.drop s.requests.length,
    beforeReply := (AgentChat.sendMessage s).messages,
    afterReply := (AgentChat.replySettled (AgentChat.sendMessage s) 0 r).messages }

end ContractAnalysis

namespace ContractAnalysis

/-! ## The clause/risk join -/

/-- The level shown for a clause is decided by `find?` alone. -/
theorem ClauseCard_level (clause : Clause) (risks : List RiskAnnotation) :
    (ClauseCard clause risks).level =
      ((risks.find? (fun r => r.clause_id == clause.id)).map (fun r => r.level)).getD "low" := by
  unfold ClauseCard
  cases risks.find? (fun r => r.clause_id == clause.id) <;> rfl

/-- Either a first matching annotation exists and gives the level, or none
matches and the level is `low`. -/
theorem ClauseCard_first_match (clause : Clause) (risks : List RiskAnnotation) :
    (∃ pre r post, risks = pre ++ r :: post ∧ r.clause_id = clause.id ∧
        (∀ x ∈ pre, x.clause_id ≠ clause.id) ∧ (ClauseCard clause risks).level = r.level) ∨
    ((∀ r ∈ risks, r.clause_id ≠ clause.id) ∧ (ClauseCard clause risks).level = "low") := by
  rw [ClauseCard_level]
  cases h : risks.find? (fun r => r.clause_id == clause.id) with
  | none =>
    right
    rw [List.find?_eq_none] at h
    exact ⟨fun r hr => by simpa using h r hr, rfl⟩
  | some r =>
    left
    rw [List.find?_eq_some] at h
    obtain ⟨hp, pre, post, hsplit, hpre⟩ := h
    exact ⟨pre, r, post, hsplit, by simpa using hp, fun x hx => by simpa using hpre x hx, rfl⟩

/-- An annotation that does not name the clause can be dropped from the list. -/
theorem ClauseCard_skip (clause : Clause) (pre post : List RiskAnnotation)
    (o : RiskAnnotation) (ho : o.clause_id ≠ clause.id) :
    ClauseCard clause (pre ++ o :: post) = ClauseCard clause (pre ++ post) := by
  have hfind : (pre ++ o :: post).find? (fun r => r.clause_id == clause.id) =
      (pre ++ post).find? (fun r => r.clause_id == clause.id) := by
    simp [List.find?_append, List.find?_cons, ho]
  simp only [ClauseCard, hfind]

/-- With no matching annotation the level is `low`. -/
theorem ClauseCard_no_match (clause : Clause) (risks : List RiskAnnotation)
    (h : ∀ r ∈ risks, r.clause_id ≠ clause.id) : (ClauseCard clause risks).level = "low" := by
  rw [ClauseCard_level]
  have hnone : risks.find? (fun r => r.clause_id == clause.id) = none := by
    rw [List.find?_eq_none]
    intro r hr
    simpa using h r hr
  rw [hnone]
  rfl

/-- C1: the join has one card per clause, in the order of the clauses; the card
of a clause carries the level of the first annotation naming that clause and
`low` when no annotation names it; an annotation naming no clause can be
inserted anywhere without changing the join; a clause that no annotation
names is `low` under every reordering of the annotations. -/
theorem joinedClauses_spec (clauses : List Clause) (risks : List RiskAnnotation) :
    (joinedClauses clauses risks).length = clauses.length ∧
    (joinedClauses clauses risks).map Card.clause = clauses ∧
    (∀ (i : Nat) (c : Clause), clauses.get? i = some c →
      ∃ k, (joinedClauses clauses risks).get? i = some k ∧ k.clause = c ∧
        ((∃ pre r post, risks = pre ++ r :: post ∧ r.clause_id = c.id ∧
            (∀ x ∈ pre, x.clause_id ≠ c.id) ∧ k.level = r.level) ∨
         ((∀ r ∈ risks, r.clause_id ≠ c.id) ∧ k.level = "low"))) ∧
    (∀ (pre post : List RiskAnnotation) (o : RiskAnnotation), risks = pre ++ post →
      (∀ c ∈ clauses, o.clause_id ≠ c.id) →
      joinedClauses clauses (pre ++ o :: post) = joinedClauses clauses risks) ∧
    (∀ (reordered : List RiskAnnotation) (c : Clause), reordered.Perm risks →
      (∀ r ∈ risks, r.clause_id ≠ c.id) → (ClauseCard c reordered).level = "low") := by
  refine ⟨?_, ?_, ?_, ?_, ?_⟩
  · simp [joinedClauses]
  · simp only [joinedClauses, List.map_map]
    exact List.map_id clauses
  · intro i c hc
    refine ⟨ClauseCard c risks, ?_, rfl, ClauseCard_first_match c risks⟩
    simp [joinedClauses, List.get?_eq_getElem?] at hc ⊢
    exact ⟨c, hc, rfl⟩
  · intro pre post o hsplit ho
    subst hsplit
    unfold joinedClauses
    apply List.map_congr_left
    intro c hc
    exact ClauseCard_skip c pre post o (ho c hc)
  · intro reordered c hperm hnone
    apply ClauseCard_no_match
    intro r hr
    exact hnone r (hperm.mem_iff.mp hr)

/-! ## The risk tally -/

theorem find?_map_key_ne (acc : Counts) (k j : String) (v : JsVal) (hne : k ≠ j) :
    (acc.map (fun p => if p.1 == k then (k, v) else p)).find? (fun p => p.1 == j) =
      acc.find? (fun p => p.1 == j) := by
  induction acc with
  | nil => rfl
  | cons p rest ih =>
    rw [List.map_cons, List.find?_cons, List.find?_cons, ih]
    have h2 : (k == j) = false := by simpa using hne
    by_cases hp : p.1 = k
    · have h1 : (p.1 == k) = true := by simpa using hp
      have h3 : (p.1 == j) = false := by rw [hp]; exact h2
      simp only [h1, if_true, h2, h3]
    · have h1 : (p.1 == k) = false := by simpa using hp
      simp only [h1, Bool.false_eq_true, if_false]

theorem find?_map_key_eq (acc : Counts) (k : String) (v : JsVal)
    (hany : acc.any (fun p => p.1 == k) = true) :
    (acc.map (fun p => if p.1 == k then (k, v) else p)).find? (fun p => p.1 == k) =
      some (k, v) := by
  induction acc with
  | nil => simp at hany
  | cons p rest ih =>
    rw [List.map_cons, List.find?_cons]
    by_cases hp : p.1 = k
    · have h1 : (p.1 == k) = true := by simpa using hp
      simp only [h1, if_true, beq_self_eq_true]
    · have h1 : (p.1 == k) = false := by simpa using hp
      have hrest : rest.any (fun p => p.1 == k) = true := by
        simpa [List.any_cons, h1] using hany
      simp only [h1, Bool.false_eq_true, if_false]
      exact ih hrest

theorem Counts.get_set_ne (acc : Counts) (k j : String) (v : JsVal) (hne : k ≠ j) :
    Counts.get (Counts.set acc k v) j = Counts.get acc j := by
  unfold Counts.set
  split
  · rfl
  · split
    · unfold Counts.get
      rw [find?_map_key_ne acc k j v hne]
    · unfold Counts.get
      have h2 : (k == j) = false := by simpa using hne
      simp [List.find?_append, List.find?_cons, h2]

theorem Counts.get_set_eq (acc : Counts) (k : String) (v : JsVal) (hk : k ≠ "__proto__") :
    Counts.get (Counts.set acc k v) k = some v := by
  unfold Counts.set
  have hk2 : (k == "__proto__") = false := by simpa using hk
  rw [hk2]
  simp only [Bool.false_eq_true, if_false]
  split
  · rename_i hany
    unfold Counts.get
    rw [find?_map_key_eq acc k v hany]
    rfl
  · rename_i hany
    unfold Counts.get
    have hnone : acc.find? (fun p => p.1 == k) = none := by
      rw [List.find?_eq_none]
      intro p hp hpk
      exact hany (List.any_eq_true.mpr ⟨p, hp, hpk⟩)
    simp [List.find?_append, hnone]

/-- The `reduce` adds to the number under a key one for each annotation of
that level, whatever the other levels are. -/
theorem tally_count (K : String) (hK : K ≠ "__proto__") (risks : List RiskAnnotation) :
    ∀ (acc : Counts) (n : Nat), Counts.get acc K = some (JsVal.num n) →
      Counts.get (risks.foldl (fun acc r => Counts.set acc r.level (Counts.bump acc r.level)) acc)
          K =
        some (JsVal.num (n + risks.countP (fun r => r.level == K))) := by
  induction risks with
  | nil => intro acc n h; simpa using h
  | cons r rest ih =>
    intro acc n h
    rw [List.foldl_cons]
    by_cases hr : r.level = K
    · have hb : Counts.bump acc K = JsVal.num (n + 1) := by simp [Counts.bump, h]
      have hstep : Counts.get (Counts.set acc r.level (Counts.bump acc r.level)) K =
          some (JsVal.num (n + 1)) := by
        rw [hr, hb]
        exact Counts.get_set_eq acc K _ hK
      rw [ih _ _ hstep, List.countP_cons_of_pos _ _ (by simpa using hr)]
      congr 2
      omega
    · have hstep : Counts.get (Counts.set acc r.level (Counts.bump acc r.level)) K =
          some (JsVal.num n) := by
        rw [Counts.get_set_ne acc r.level K _ hr]
        exact h
      rw [ih _ _ hstep, List.countP_cons_of_neg _ _ (by simpa using hr)]

theorem countP_levels (risks : List RiskAnnotation) :
    risks.countP (fun r => r.level == "low") + risks.countP (fun r => r.level == "medium") +
        risks.countP (fun r => r.level == "high") =
      risks.countP (fun r => isLevel r.level) := by
  induction risks with
  | nil => rfl
  | cons r rest ih =>
    simp only [List.countP_cons]
    by_cases h1 : r.level = "low"
    · have hl : isLevel r.level = true := by simp [isLevel, h1]
      simp only [hl]
      simp [h1]
      omega
    · by_cases h2 : r.level = "medium"
      · have hl : isLevel r.level = true := by simp [isLevel, h2]
        simp only [hl]
        simp [h2]
        omega
      · by_cases h3 : r.level = "high"
        · have hl : isLevel r.level = true := by simp [isLevel, h3]
          simp only [hl]
          simp [h3]
          omega
        · have hl : isLevel r.level = false := by simp [isLevel, h1, h2, h3]
          simp only [hl]
          simp [h1, h2, h3]
          omega

/-- One step of the `reduce` on a record of the fixed shape, for each of the
three levels. -/
theorem tally_step (l m h : Nat) (k : String) (hk : isLevel k = true) :
    ∃ l2 m2 h2,
      Counts.set [("low", JsVal.num l), ("medium", JsVal.num m), ("high", JsVal.num h)] k
          (Counts.bump [("low", JsVal.num l), ("medium", JsVal.num m), ("high", JsVal.num h)] k) =
        [("low", JsVal.num l2), ("medium", JsVal.num m2), ("high", JsVal.num h2)] ∧
      l2 + m2 + h2 = l + m + h + 1 := by
  simp only [isLevel, Bool.or_eq_true, beq_iff_eq] at hk
  rcases hk with (rfl | rfl) | rfl
  · exact ⟨l + 1, m, h, by simp [Counts.set, Counts.get, Counts.bump], by omega⟩
  · exact ⟨l, m + 1, h, by simp [Counts.set, Counts.get, Counts.bump], by omega⟩
  · exact ⟨l, m, h + 1, by simp [Counts.set, Counts.get, Counts.bump], by omega⟩

/-- The `reduce` keeps the fixed shape and adds one per annotation when every
level is one of the three. -/
theorem tally_foldl (risks : List RiskAnnotation) (hwf : ∀ r ∈ risks, isLevel r.level = true) :
    ∀ l m h : Nat, ∃ l2 m2 h2,
      risks.foldl (fun acc r => Counts.set acc r.level (Counts.bump acc r.level))
          [("low", JsVal.num l), ("medium", JsVal.num m), ("high", JsVal.num h)] =
        [("low", JsVal.num l2), ("medium", JsVal.num m2), ("high", JsVal.num h2)] ∧
      l2 + m2 + h2 = l + m + h + risks.length := by
  induction risks with
  | nil => intro l m h; exact ⟨l, m, h, rfl, rfl⟩
  | cons r rest ih =>
    intro l m h
    obtain ⟨l1, m1, h1, hstep, hsum⟩ := tally_step l m h r.level (hwf r (List.mem_cons_self _ _))
    obtain ⟨l2, m2, h2, hrest, hsum2⟩ :=
      ih (fun x hx => hwf x (List.mem_cons_of_mem _ hx)) l1 m1 h1
    refine ⟨l2, m2, h2, ?_, ?_⟩
    · rw [List.foldl_cons, hstep, hrest]
    · simp only [List.length_cons]; omega

/-- C2 fails on the list of the one annotation with level `critical`: the tally
gets a fourth property, `low`, `medium` and `high` stay at `0`, and their sum `0`
is not the length `1` of the list. -/
theorem aggregateRiskCounts_unknown_level_counterexample :
    aggregateRiskCounts [⟨"c1", "critical"⟩] =
      [("low", JsVal.num 0), ("medium", JsVal.num 0), ("high", JsVal.num 0),
        ("critical", JsVal.num 1)] ∧
    chartData (aggregateRiskCounts [⟨"c1", "critical"⟩]) =
      [("Low", some (JsVal.num 0)), ("Medium", some (JsVal.num 0)),
        ("High", some (JsVal.num 0))] ∧
    0 + 0 + 0 ≠ [(⟨"c1", "critical"⟩ : RiskAnnotation)].length := by
  decide

/-- C2, amended: for the empty list the tally is exactly
`{low: 0, medium: 0, high: 0}`.  For every list of annotations, `low`, `medium`
and `high` hold the numbers of annotations of that level, so that their sum is
the number of annotations whose level is `low`, `medium` or `high`.  When every
level in the list is one of the three, the tally is a record `{low, medium,
high}` and the three counts add up to the length of the list. -/
theorem aggregateRiskCounts_sum (risks : List RiskAnnotation) :
    aggregateRiskCounts [] =
      [("low", JsVal.num 0), ("medium", JsVal.num 0), ("high", JsVal.num 0)] ∧
    chartData (aggregateRiskCounts risks) =
      [("Low", some (JsVal.num (risks.countP (fun r => r.level == "low")))),
       ("Medium", some (JsVal.num (risks.countP (fun r => r.level == "medium")))),
       ("High", some (JsVal.num (risks.countP (fun r => r.level == "high"))))] ∧
    risks.countP (fun r => r.level == "low") + risks.countP (fun r => r.level == "medium") +
        risks.countP (fun r => r.level == "high") =
      risks.countP (fun r => isLevel r.level) ∧
    ((∀ r ∈ risks, isLevel r.level = true) →
      risks.countP (fun r => r.level == "low") + risks.countP (fun r => r.level == "medium") +
          risks.countP (fun r => r.level == "high") = risks.length ∧
      ∃ l m h, aggregateRiskCounts risks =
          [("low", JsVal.num l), ("medium", JsVal.num m), ("high", JsVal.num h)] ∧
        l + m + h = risks.length) := by
  have hlow := tally_count "low" (by decide) risks
    [("low", JsVal.num 0), ("medium", JsVal.num 0), ("high", JsVal.num 0)] 0 (by decide)
  have hmed := tally_count "medium" (by decide) risks
    [("low", JsVal.num 0), ("medium", JsVal.num 0), ("high", JsVal.num 0)] 0 (by decide)
  have hhigh := tally_count "high" (by decide) risks
    [("low", JsVal.num 0), ("medium", JsVal.num 0), ("high", JsVal.num 0)] 0 (by decide)
  have hsplit := countP_levels risks
  refine ⟨rfl, ?_, hsplit, ?_⟩
  · simp only [Nat.zero_add] at hlow hmed hhigh
    simp only [chartData, aggregateRiskCounts, hlow, hmed, hhigh]
  · intro hwf
    have hall : risks.countP (fun r => isLevel r.level) = risks.length := by
      rw [List.countP_eq_length]
      intro r hr
      exact hwf r hr
    refine ⟨by rw [hsplit, hall], ?_⟩
    obtain ⟨l, m, h, hshape, hsum⟩ := tally_foldl risks hwf 0 0 0
    exact ⟨l, m, h, hshape, by omega⟩

/-- The amended C2 on two annotations of known levels. -/
theorem aggregateRiskCounts_sum_witness :
    (∀ r ∈ [(⟨"c1", "high"⟩ : RiskAnnotation), ⟨"c2", "low"⟩], isLevel r.level = true) ∧
    List.countP (fun r => r.level == "low") [(⟨"c1", "high"⟩ : RiskAnnotation), ⟨"c2", "low"⟩] +
        List.countP (fun r => r.level == "medium")
          [(⟨"c1", "high"⟩ : RiskAnnotation), ⟨"c2", "low"⟩] +
        List.countP (fun r => r.level == "high")
          [(⟨"c1", "high"⟩ : RiskAnnotation), ⟨"c2", "low"⟩] =
      [(⟨"c1", "high"⟩ : RiskAnnotation), ⟨"c2", "low"⟩].length :=
  ⟨by decide,
   ((aggregateRiskCounts_sum [⟨"c1", "high"⟩, ⟨"c2", "low"⟩]).2.2.2 (by decide)).1⟩

/-! ## The analysis session -/

namespace AnalysisPage

/-- C3 fails on `doc1` when the clauses request answers one clause, the risks
request fails and the recommendations request answers the empty list: the
session ends in the very state it reaches when all three requests succeed with
empty lists, so no error status tells it from a ready one, and the clause that
was fetched is not in the view state. -/
theorem fetchSettled_risks_failure_counterexample :
    fetchSettled (mount "doc1") "doc1"
        (.fulfilled [⟨"c1", "Payment is due in 30 days."⟩]) (.rejected "500") (.fulfilled []) =
      fetchSettled (mount "doc1") "doc1" (.fulfilled []) (.fulfilled []) (.fulfilled []) ∧
    (fetchSettled (mount "doc1") "doc1"
        (.fulfilled [⟨"c1", "Payment is due in 30 days."⟩]) (.rejected "500")
        (.fulfilled [])).clauses = [] ∧
    (fetchSettled (mount "doc1") "doc1"
        (.fulfilled [⟨"c1", "Payment is due in 30 days."⟩]) (.rejected "500")
        (.fulfilled [])).clauses ≠ [⟨"c1", "Payment is due in 30 days."⟩] := by
  decide

/-- C3, amended: in every session state and for every document identifier whose
requests are in flight, when the risks request fails while the clauses and
recommendations requests succeed, the session leaves the loading state with
clauses, risks and recommendations as they were before (empty on first entry).
The failure leaves no trace in the state: it is the state reached when all
three requests succeed with the lists the session already held, the page
renders the analysis view of those lists, and the clause list that the
clauses request answered is not stored. -/
theorem fetchSettled_risks_failure (s : AnalysisPage) (d reason : String) (c : List Clause)
    (rec : List Recommendation) (hin : d ∈ s.inflight) :
    fetchSettled s d (.fulfilled c) (.rejected reason) (.fulfilled rec) =
      { s with loading := false, inflight := s.inflight.erase d } ∧
    view (fetchSettled s d (.fulfilled c) (.rejected reason) (.fulfilled rec)) =
      (s.docId, s.clauses, s.risks, s.recommendations, false) ∧
    fetchSettled s d (.fulfilled c) (.rejected reason) (.fulfilled rec) =
      fetchSettled s d (.fulfilled s.clauses) (.fulfilled s.risks)
        (.fulfilled s.recommendations) ∧
    render (fetchSettled s d (.fulfilled c) (.rejected reason) (.fulfilled rec)) =
      Rendered.analysis (joinedClauses s.clauses s.risks)
        (chartData (aggregateRiskCounts s.risks)) s.docId ∧
    fetchSettled (mount d) d (.fulfilled c) (.rejected reason) (.fulfilled rec) =
      { mount d with loading := false, inflight := [] } := by
  refine ⟨?_, ?_, ?_, ?_, ?_⟩
  · simp [fetchSettled, hin, promiseAll3]
  · simp [fetchSettled, hin, promiseAll3, view]
  · simp [fetchSettled, hin, promiseAll3]
  · simp [fetchSettled, hin, promiseAll3, render]
  · simp [fetchSettled, mount, promiseAll3]

/-- The amended C3 after a switch from the loaded `d1` to `d2`: the failure of
the risks request for `d2` leaves the clause and the annotation of `d1` in the
view state. -/
theorem fetchSettled_risks_failure_witness :
    "d2" ∈ (changeDoc (fetchSettled (mount "d1") "d1" (.fulfilled [⟨"c1", "Clause of d1"⟩])
        (.fulfilled [⟨"c1", "high"⟩]) (.fulfilled [])) "d2").inflight ∧
    view (fetchSettled
        (changeDoc (fetchSettled (mount "d1") "d1" (.fulfilled [⟨"c1", "Clause of d1"⟩])
          (.fulfilled [⟨"c1", "high"⟩]) (.fulfilled [])) "d2")
        "d2" (.fulfilled [⟨"c9", "Clause of d2"⟩]) (.rejected "500") (.fulfilled [])) =
      ((changeDoc (fetchSettled (mount "d1") "d1" (.fulfilled [⟨"c1", "Clause of d1"⟩])
          (.fulfilled [⟨"c1", "high"⟩]) (.fulfilled [])) "d2").docId,
       (changeDoc (fetchSettled (mount "d1") "d1" (.fulfilled [⟨"c1", "Clause of d1"⟩])
          (.fulfilled [⟨"c1", "high"⟩]) (.fulfilled [])) "d2").clauses,
       (changeDoc (fetchSettled (mount "d1") "d1" (.fulfilled [⟨"c1", "Clause of d1"⟩])
          (.fulfilled [⟨"c1", "high"⟩]) (.fulfilled [])) "d2").risks,
       (changeDoc (fetchSettled (mount "d1") "d1" (.fulfilled [⟨"c1", "Clause of d1"⟩])
          (.fulfilled [⟨"c1", "high"⟩]) (.fulfilled [])) "d2").recommendations,
       false) :=
  ⟨by decide,
   (fetchSettled_risks_failure
      (changeDoc (fetchSettled (mount "d1") "d1" (.fulfilled [⟨"c1", "Clause of d1"⟩])
        (.fulfilled [⟨"c1", "high"⟩]) (.fulfilled [])) "d2")
      "d2" "500" [⟨"c9", "Clause of d2"⟩] [] (by decide)).2.1⟩

/-- C4 fails for `d1` and `d2`: after the switch to `d2`, the answer for `d1`
arrives and the view state shown under `d2` changes: it now holds the clause
and the annotation of `d1` and is no longer loading, while the requests for `d2`
are still in flight. -/
theorem fetchSettled_stale_counterexample :
    (changeDoc (mount "d1") "d2").docId = "d2" ∧
    view (fetchSettled (changeDoc (mount "d1") "d2") "d1"
        (.fulfilled [⟨"c1", "Clause of d1"⟩]) (.fulfilled [⟨"c1", "high"⟩]) (.fulfilled [])) ≠
      view (changeDoc (mount "d1") "d2") ∧
    view (fetchSettled (changeDoc (mount "d1") "d2") "d1"
        (.fulfilled [⟨"c1", "Clause of d1"⟩]) (.fulfilled [⟨"c1", "high"⟩]) (.fulfilled [])) =
      ("d2", [⟨"c1", "Clause of d1"⟩], [⟨"c1", "high"⟩], [], false) ∧
    (fetchSettled (changeDoc (mount "d1") "d2") "d1"
        (.fulfilled [⟨"c1", "Clause of d1"⟩]) (.fulfilled [⟨"c1", "high"⟩])
        (.fulfilled [])).inflight = ["d2"] := by
  decide

/-- C4, amended: when the current identifier is `D2` and the requests started
for a different identifier `D1` are still in flight, their answer is applied
without any check of the identifier.  If all three succeeded, the clauses,
risks and recommendations become those of `D1`; if one failed they stay as
they were.  In both cases loading is cleared, the identifier stays `D2` and
whatever was in flight for `D2` stays in flight. -/
theorem fetchSettled_stale (s : AnalysisPage) (D1 D2 : String)
    (c : Settled (List Clause)) (r : Settled (List RiskAnnotation))
    (rec : Settled (List Recommendation))
    (hcur : s.docId = D2) (hne : D1 ≠ D2) (hin : D1 ∈ s.inflight) :
    (∀ cs rs recs, c = .fulfilled cs → r = .fulfilled rs → rec = .fulfilled recs →
      view (fetchSettled s D1 c r rec) = (D2, cs, rs, recs, false)) ∧
    (∀ e, promiseAll3 c r rec = .rejected e →
      view (fetchSettled s D1 c r rec) = (D2, s.clauses, s.risks, s.recommendations, false)) ∧
    (fetchSettled s D1 c r rec).loading = false ∧
    (fetchSettled s D1 c r rec).docId = D2 ∧
    (D2 ∈ s.inflight → D2 ∈ (fetchSettled s D1 c r rec).inflight) := by
  have hkeep : D2 ∈ s.inflight → D2 ∈ s.inflight.erase D1 := fun h =>
    (List.mem_erase_of_ne (Ne.symm hne)).mpr h
  refine ⟨?_, ?_, ?_, ?_, ?_⟩
  · intro cs rs recs hc hr hrec
    subst hc hr hrec
    simp [fetchSettled, hin, promiseAll3, view, hcur]
  · intro e he
    simp [fetchSettled, hin, he, view, hcur]
  · unfold fetchSettled
    rw [if_pos hin]
    cases promiseAll3 c r rec <;> rfl
  · unfold fetchSettled
    rw [if_pos hin]
    cases promiseAll3 c r rec <;> exact hcur
  · intro h
    unfold fetchSettled
    rw [if_pos hin]
    cases promiseAll3 c r rec <;> exact hkeep h

/-- The amended C4 on the switch from `d1` to `d2`. -/
theorem fetchSettled_stale_witness :
    (changeDoc (mount "d1") "d2").docId = "d2" ∧ "d1" ≠ "d2" ∧
    "d1" ∈ (changeDoc (mount "d1") "d2").inflight ∧
    view (fetchSettled (changeDoc (mount "d1") "d2") "d1"
        (.fulfilled [⟨"c1", "Clause of d1"⟩]) (.fulfilled []) (.fulfilled [])) =
      ("d2", [⟨"c1", "Clause of d1"⟩], [], [], false) :=
  ⟨by decide, by decide, by decide,
    (fetchSettled_stale (changeDoc (mount "d1") "d2") "d1" "d2"
      (.fulfilled [⟨"c1", "Clause of d1"⟩]) (.fulfilled []) (.fulfilled [])
      (by decide) (by decide) (by decide)).1 _ _ _ rfl rfl rfl⟩

end AnalysisPage

/-! ## The upload card -/

namespace UploadCard

theorem inv_init : Inv init :=
  Or.inl ⟨rfl, rfl⟩

theorem inv_catch (s : UploadCard) : Inv s → Inv (handleUpload_catch s 0) := by
  rintro (⟨h, _⟩ | ⟨a, h, _, _⟩) <;> exact Or.inl (by simp [handleUpload_catch, h])

theorem uploadSettled_idle (s : UploadCard) (h : s.inflight = []) (i : Nat)
    (r : Settled UploadAck) : uploadSettled s i r = s := by
  simp [uploadSettled, h]

theorem ingestSettled_idle (s : UploadCard) (h : s.inflight = []) (i : Nat)
    (r : Settled (Option IngestResp)) : ingestSettled s i r = s := by
  simp [ingestSettled, h]

theorem uploadSettled_succ (s : UploadCard) (a : Awaiting) (h : s.inflight = [a]) (i : Nat)
    (r : Settled UploadAck) : uploadSettled s (i + 1) r = s := by
  simp [uploadSettled, h]

theorem ingestSettled_succ (s : UploadCard) (a : Awaiting) (h : s.inflight = [a]) (i : Nat)
    (r : Settled (Option IngestResp)) : ingestSettled s (i + 1) r = s := by
  simp [ingestSettled, h]

theorem inv_fileChange (s : UploadCard) (hs : Inv s) (f : Option File) :
    Inv (handleFileChange s f) := by
  rcases hs with ⟨h1, h2⟩ | ⟨a, h1, h2, h3⟩
  · exact Or.inl ⟨h1, h2⟩
  · exact Or.inr ⟨a, h1, h2, h3⟩

theorem inv_render (s : UploadCard) (hs : Inv s) : Inv (render s) := by
  rcases hs with ⟨h1, h2⟩ | ⟨a, h1, h2, _⟩
  · exact Or.inl ⟨h1, h2⟩
  · exact Or.inr ⟨a, h1, h2, h2⟩

theorem inv_uploadSettled (s : UploadCard) (hs : Inv s) (i : Nat) (r : Settled UploadAck) :
    Inv (uploadSettled s i r) := by
  rcases hs with ⟨h1, h2⟩ | ⟨a, h1, h2, h3⟩
  · rw [uploadSettled_idle s h1]
    exact Or.inl ⟨h1, h2⟩
  · cases i with
    | succ j =>
      rw [uploadSettled_succ s a h1]
      exact Or.inr ⟨a, h1, h2, h3⟩
    | zero =>
      cases a with
      | ingest =>
        have hsame : uploadSettled s 0 r = s := by simp [uploadSettled, h1]
        rw [hsame]
        exact Or.inr ⟨Awaiting.ingest, h1, h2, h3⟩
      | upload =>
        cases r with
        | rejected e =>
          have hc : uploadSettled s 0 (.rejected e) = handleUpload_catch s 0 := by
            simp [uploadSettled, h1]
          rw [hc]
          exact inv_catch s (Or.inr ⟨Awaiting.upload, h1, h2, h3⟩)
        | fulfilled ack =>
          cases hok : ack.ok with
          | false =>
            have hc : uploadSettled s 0 (.fulfilled ack) = handleUpload_catch s 0 := by
              simp [uploadSettled, h1, hok]
            rw [hc]
            exact inv_catch s (Or.inr ⟨Awaiting.upload, h1, h2, h3⟩)
          | true =>
            refine Or.inr ⟨Awaiting.ingest, ?_, ?_, ?_⟩ <;>
              simp [uploadSettled, h1, hok, h2, h3]

theorem inv_ingestSettled (s : UploadCard) (hs : Inv s) (i : Nat)
    (r : Settled (Option IngestResp)) : Inv (ingestSettled s i r) := by
  rcases hs with ⟨h1, h2⟩ | ⟨a, h1, h2, h3⟩
  · rw [ingestSettled_idle s h1]
    exact Or.inl ⟨h1, h2⟩
  · cases i with
    | succ j =>
      rw [ingestSettled_succ s a h1]
      exact Or.inr ⟨a, h1, h2, h3⟩
    | zero =>
      cases a with
      | upload =>
        have hsame : ingestSettled s 0 r = s := by simp [ingestSettled, h1]
        rw [hsame]
        exact Or.inr ⟨Awaiting.upload, h1, h2, h3⟩
      | ingest =>
        cases r with
        | rejected e =>
          have hc : ingestSettled s 0 (.rejected e) = handleUpload_catch s 0 := by
            simp [ingestSettled, h1]
          rw [hc]
          exact inv_catch s (Or.inr ⟨Awaiting.ingest, h1, h2, h3⟩)
        | fulfilled resp =>
          cases hcb : UploadPage.handleSuccess resp with
          | ok nav => exact Or.inl (by simp [ingestSettled, h1, hcb])
          | error e => exact Or.inl (by simp [ingestSettled, h1, hcb, handleUpload_catch])

theorem inv_click_render (s : UploadCard) (hs : Inv s) : Inv (render (clickUpload s)) := by
  rcases hs with ⟨h1, h2⟩ | ⟨a, h1, h2, h3⟩
  · cases hd : s.disabled with
    | true =>
      simp only [clickUpload, hd, if_true]
      exact inv_render s (Or.inl ⟨h1, h2⟩)
    | false =>
      simp only [clickUpload, hd, Bool.false_eq_true, if_false]
      unfold handleUpload
      cases hf : s.file with
      | none => exact Or.inl ⟨h1, h2⟩
      | some f => exact Or.inr ⟨Awaiting.upload, by simp [render, h1], rfl, rfl⟩
  · simp only [clickUpload, h3, if_true]
    exact inv_render s (Or.inr ⟨a, h1, h2, h3⟩)

theorem inv_run_bounded (n : Nat) :
    ∀ (evs : List Event), evs.length ≤ n → ∀ s : UploadCard, Inv s →
      rendersAfterClick evs = true → Inv (run s evs) := by
  induction n with
  | zero =>
    intro evs hlen s hs _
    have hnil : evs = [] := List.length_eq_zero.mp (Nat.le_zero.mp hlen)
    subst hnil
    exact hs
  | succ n ih =>
    intro evs hlen s hs hp
    cases evs with
    | nil => exact hs
    | cons e rest =>
      have hrest : rest.length ≤ n := by
        simp only [List.length_cons] at hlen
        omega
      cases e with
      | fileChange f =>
        exact ih rest hrest _ (inv_fileChange s hs f) (by simpa [rendersAfterClick] using hp)
      | render =>
        exact ih rest hrest _ (inv_render s hs) (by simpa [rendersAfterClick] using hp)
      | uploadReply i r =>
        exact ih rest hrest _ (inv_uploadSettled s hs i r) (by simpa [rendersAfterClick] using hp)
      | ingestReply i r =>
        exact ih rest hrest _ (inv_ingestSettled s hs i r) (by simpa [rendersAfterClick] using hp)
      | click =>
        cases rest with
        | nil => simp [rendersAfterClick] at hp
        | cons e2 rest2 =>
          have hrest2 : rest2.length ≤ n := by
            simp only [List.length_cons] at hrest
            omega
          cases e2 with
          | render =>
            exact ih rest2 hrest2 _ (inv_click_render s hs)
              (by simpa [rendersAfterClick] using hp)
          | fileChange f => simp [rendersAfterClick] at hp
          | click => simp [rendersAfterClick] at hp
          | uploadReply i r => simp [rendersAfterClick] at hp
          | ingestReply i r => simp [rendersAfterClick] at hp

theorem inv_run (evs : List Event) (hp : rendersAfterClick evs = true) : Inv (run init evs) :=
  inv_run_bounded evs.length evs (Nat.le_refl _) init inv_init hp

theorem run_append (s : UploadCard) (xs ys : List Event) :
    run s (xs ++ ys) = run (run s xs) ys := by
  simp [run, List.foldl_append]

/-- C5 fails on the card with `contract.pdf` selected and rendered: after a first
click an attempt is in progress, and a second click that comes before the next
render changes the state; it starts a second attempt, and the two attempts
issue two submit-file requests and two submit-ingest requests. -/
theorem clickUpload_before_render_counterexample :
    (run init [Event.fileChange (some ⟨"contract.pdf"⟩), Event.render,
        Event.click]).inflight ≠ [] ∧
    step (run init [Event.fileChange (some ⟨"contract.pdf"⟩), Event.render, Event.click])
        Event.click ≠
      run init [Event.fileChange (some ⟨"contract.pdf"⟩), Event.render, Event.click] ∧
    (run init [Event.fileChange (some ⟨"contract.pdf"⟩), Event.render, Event.click,
        Event.click]).inflight = [Awaiting.upload, Awaiting.upload] ∧
    (run init [Event.fileChange (some ⟨"contract.pdf"⟩), Event.render, Event.click,
        Event.click, Event.uploadReply 0 (.fulfilled ⟨true, some "doc1"⟩),
        Event.uploadReply 1 (.fulfilled ⟨true, some "doc2"⟩)]).requests =
      [Request.post_sanitize ⟨"contract.pdf"⟩, Request.post_sanitize ⟨"contract.pdf"⟩,
       Request.post_ingest (some "doc1") "demo_tenant",
       Request.post_ingest (some "doc2") "demo_tenant"] := by
  decide

/-- C5, amended: in every state reached from the initial card by events among
which each click is directly followed by a render, if an attempt is in
progress then the button is disabled and a click leaves the whole state as it
is: no request is issued and no second `handleUpload` starts; exactly one
attempt is in flight, and the rest of the run is the run without that click.
Two clicks with a render between them, before the first attempt settles,
therefore give one submit-file request followed by one submit-ingest request.
(`handleUpload` itself has no guard: a click before the render is not covered.) -/
theorem clickUpload_single_flight (evs : List Event) (f : File) (ack : UploadAck)
    (resp : Settled (Option IngestResp)) (hp : rendersAfterClick evs = true)
    (h : (run init evs).inflight ≠ []) (hok : ack.ok = true) :
    (run init evs).disabled = true ∧
    step (run init evs) Event.click = run init evs ∧
    (run init evs).inflight.length = 1 ∧
    (∀ rest, run init (evs ++ Event.click :: rest) = run init (evs ++ rest)) ∧
    (run init [Event.fileChange (some f), Event.render, Event.click, Event.render,
        Event.click, Event.render, Event.uploadReply 0 (.fulfilled ack),
        Event.ingestReply 0 resp]).requests =
      [Request.post_sanitize f, Request.post_ingest ack.document_id "demo_tenant"] := by
  have hdis : (run init evs).disabled = true ∧ (run init evs).inflight.length = 1 := by
    rcases inv_run evs hp with ⟨h1, _⟩ | ⟨a, h1, _, h3⟩
    · exact absurd h1 h
    · exact ⟨h3, by simp [h1]⟩
  have hclick : step (run init evs) Event.click = run init evs := by
    simp [step, clickUpload, hdis.1]
  refine ⟨hdis.1, hclick, hdis.2, ?_, ?_⟩
  · intro rest
    rw [run_append, run_append]
    show run (step (run init evs) Event.click) rest = _
    rw [hclick]
  · rcases resp with (_ | d) | e <;>
      simp [run, step, init, handleFileChange, render, clickUpload, handleUpload,
        uploadSettled, ingestSettled, handleUpload_catch, uploadContract, ingestContract,
        UploadPage.handleSuccess, hok]
    cases hid : d.document_id with
    | none => simp
    | some id => by_cases ht : UploadPage.truthy (some id) = true <;> simp [ht]

/-- The amended C5 on the card right after a first click with `contract.pdf`
selected and the render that follows the click. -/
theorem clickUpload_single_flight_witness :
    rendersAfterClick [Event.fileChange (some ⟨"contract.pdf"⟩), Event.render, Event.click,
        Event.render] = true ∧
    (run init [Event.fileChange (some ⟨"contract.pdf"⟩), Event.render, Event.click,
        Event.render]).inflight ≠ [] ∧
    step (run init [Event.fileChange (some ⟨"contract.pdf"⟩), Event.render, Event.click,
        Event.render]) Event.click =
      run init [Event.fileChange (some ⟨"contract.pdf"⟩), Event.render, Event.click,
        Event.render] ∧
    (run init [Event.fileChange (some ⟨"contract.pdf"⟩), Event.render, Event.click,
        Event.render, Event.click, Event.render,
        Event.uploadReply 0 (.fulfilled ⟨true, some "doc1"⟩),
        Event.ingestReply 0 (.fulfilled (some ⟨some "doc1", some 3⟩))]).requests =
      [Request.post_sanitize ⟨"contract.pdf"⟩, Request.post_ingest (some "doc1") "demo_tenant"] :=
  ⟨by decide, by decide,
   (clickUpload_single_flight
      [Event.fileChange (some ⟨"contract.pdf"⟩), Event.render, Event.click, Event.render]
      ⟨"contract.pdf"⟩ ⟨true, some "doc1"⟩ (.fulfilled (some ⟨some "doc1", some 3⟩))
      (by decide) (by decide) rfl).2.1,
   (clickUpload_single_flight
      [Event.fileChange (some ⟨"contract.pdf"⟩), Event.render, Event.click, Event.render]
      ⟨"contract.pdf"⟩ ⟨true, some "doc1"⟩ (.fulfilled (some ⟨some "doc1", some 3⟩))
      (by decide) (by decide) rfl).2.2.2.2⟩

/-- C6: in every state with no file selected, `handleUpload` only sets the
error text to the validation message: no request is issued, nothing is put in
flight, and the file and the loading flag are as before; a click on the
enabled button does exactly that. -/
theorem handleUpload_no_file (s : UploadCard) (h : s.file = none) :
    handleUpload s = { s with error := "Please select a file first." } ∧
    (handleUpload s).error = "Please select a file first." ∧
    (handleUpload s).requests = s.requests ∧
    (handleUpload s).inflight = s.inflight ∧
    (handleUpload s).file = s.file ∧
    (handleUpload s).loading = s.loading ∧
    (handleUpload s).delivered = s.delivered ∧
    (s.disabled = false → clickUpload s = handleUpload s) := by
  have hu : handleUpload s = { s with error := "Please select a file first." } := by
    simp [handleUpload, h]
  refine ⟨hu, ?_, ?_, ?_, ?_, ?_, ?_, ?_⟩
  · rw [hu]
  · rw [hu]
  · rw [hu]
  · rw [hu]
  · rw [hu]
  · rw [hu]
  · intro hl
    simp [clickUpload, hl]

/-- C6 on the initial card. -/
theorem handleUpload_no_file_witness :
    init.file = none ∧
    (handleUpload init).error = "Please select a file first." ∧
    (handleUpload init).requests = [] :=
  ⟨rfl, (handleUpload_no_file init rfl).2.1, (handleUpload_no_file init rfl).2.2.1⟩

/-- C7: for an attempt started by `handleUpload` with a file selected and
nothing else in flight, the upload request is issued first; the ingest request
is issued exactly when the upload call answered an acknowledgment with `ok`
true, and it then carries the acknowledgment's `document_id` and the tenant
`demo_tenant`.  Otherwise no request is added, the success callback is not
invoked, the error text is set, loading is cleared and the attempt is over:
no later answer changes the card. -/
theorem handleUpload_ingest_iff_ok (s : UploadCard) (f : File) (r : Settled UploadAck)
    (hfile : s.file = some f) (hidle : s.inflight = []) :
    (handleUpload s).requests = s.requests ++ [Request.post_sanitize f] ∧
    ((∃ ack, r = .fulfilled ack ∧ ack.ok = true) ↔
      ∃ d t, (uploadSettled (handleUpload s) 0 r).requests =
        (handleUpload s).requests ++ [Request.post_ingest d t]) ∧
    (∀ ack, r = .fulfilled ack → ack.ok = true →
      (uploadSettled (handleUpload s) 0 r).requests =
          (handleUpload s).requests ++ [Request.post_ingest ack.document_id "demo_tenant"] ∧
      (uploadSettled (handleUpload s) 0 r).inflight = [Awaiting.ingest]) ∧
    ((¬ ∃ ack, r = .fulfilled ack ∧ ack.ok = true) →
      (uploadSettled (handleUpload s) 0 r).requests = (handleUpload s).requests ∧
      (uploadSettled (handleUpload s) 0 r).delivered = s.delivered ∧
      (uploadSettled (handleUpload s) 0 r).error = "Upload/analysis failed. Try again." ∧
      (uploadSettled (handleUpload s) 0 r).loading = false ∧
      (uploadSettled (handleUpload s) 0 r).inflight = [] ∧
      (∀ i r2, ingestSettled (uploadSettled (handleUpload s) 0 r) i r2 =
        uploadSettled (handleUpload s) 0 r) ∧
      (∀ i r2, uploadSettled (uploadSettled (handleUpload s) 0 r) i r2 =
        uploadSettled (handleUpload s) 0 r)) := by
  have hu : handleUpload s =
      { s with error := "", loading := true,
               requests := s.requests ++ [Request.post_sanitize f],
               inflight := [Awaiting.upload] } := by
    simp [handleUpload, hfile, hidle, uploadContract]
  have hfail : (¬ ∃ ack, r = .fulfilled ack ∧ ack.ok = true) →
      uploadSettled (handleUpload s) 0 r = handleUpload_catch (handleUpload s) 0 := by
    intro hno
    cases r with
    | rejected e => simp [uploadSettled, hu]
    | fulfilled ack =>
      have hok : ack.ok = false := by
        cases hk : ack.ok with
        | false => rfl
        | true => exact absurd ⟨ack, rfl, hk⟩ hno
      simp [uploadSettled, hu, hok]
  have hgood : ∀ ack, r = .fulfilled ack → ack.ok = true →
      uploadSettled (handleUpload s) 0 r =
        { handleUpload s with
          requests := (handleUpload s).requests ++
            [Request.post_ingest ack.document_id "demo_tenant"],
          inflight := [Awaiting.ingest] } := by
    intro ack hr hok
    subst hr
    simp [uploadSettled, hu, hok, ingestContract]
  refine ⟨by rw [hu], ⟨?_, ?_⟩, ?_, ?_⟩
  · rintro ⟨ack, hr, hok⟩
    exact ⟨ack.document_id, "demo_tenant", by rw [hgood ack hr hok]⟩
  · rintro ⟨d, t, hreq⟩
    by_contra hno
    rw [hfail hno] at hreq
    simp [handleUpload_catch] at hreq
  · intro ack hr hok
    rw [hgood ack hr hok]
    exact ⟨rfl, rfl⟩
  · intro hno
    have hover : (uploadSettled (handleUpload s) 0 r).inflight = [] := by
      rw [hfail hno, hu]
      simp [handleUpload_catch]
    refine ⟨?_, ?_, ?_, ?_, hover, ?_, ?_⟩
    · rw [hfail hno]; rfl
    · rw [hfail hno, hu]; rfl
    · rw [hfail hno]; rfl
    · rw [hfail hno]; rfl
    · intro i r2
      exact ingestSettled_idle _ hover i r2
    · intro i r2
      exact uploadSettled_idle _ hover i r2

/-- C7 on `contract.pdf` and the acknowledgment `{ok: true, document_id: "doc1"}`. -/
theorem handleUpload_ingest_iff_ok_witness :
    (handleFileChange init (some ⟨"contract.pdf"⟩)).file = some ⟨"contract.pdf"⟩ ∧
    (handleFileChange init (some ⟨"contract.pdf"⟩)).inflight = [] ∧
    (uploadSettled (handleUpload (handleFileChange init (some ⟨"contract.pdf"⟩))) 0
        (.fulfilled ⟨true, some "doc1"⟩)).requests =
      (handleUpload (handleFileChange init (some ⟨"contract.pdf"⟩))).requests ++
        [Request.post_ingest (some "doc1") "demo_tenant"] :=
  ⟨rfl, rfl,
   ((handleUpload_ingest_iff_ok (handleFileChange init (some ⟨"contract.pdf"⟩))
      ⟨"contract.pdf"⟩ (.fulfilled ⟨true, some "doc1"⟩) rfl rfl).2.2.1
      ⟨true, some "doc1"⟩ rfl rfl).1⟩

/-- C10 fails on the ingest answer `{chunks: 3}`, which has no `document_id`:
the card ends with an empty error text and hands the answer to the success
callback, so it has not failed; only the navigation is left out. -/
theorem ingest_without_id_counterexample :
    (run init [Event.fileChange (some ⟨"contract.pdf"⟩), Event.render, Event.click,
        Event.render, Event.uploadReply 0 (.fulfilled ⟨true, some "doc1"⟩),
        Event.ingestReply 0 (.fulfilled (some ⟨none, some 3⟩))]).error = "" ∧
    (run init [Event.fileChange (some ⟨"contract.pdf"⟩), Event.render, Event.click,
        Event.render, Event.uploadReply 0 (.fulfilled ⟨true, some "doc1"⟩),
        Event.ingestReply 0 (.fulfilled (some ⟨none, some 3⟩))]).delivered =
      [some ⟨none, some 3⟩] ∧
    (run init [Event.fileChange (some ⟨"contract.pdf"⟩), Event.render, Event.click,
        Event.render, Event.uploadReply 0 (.fulfilled ⟨true, some "doc1"⟩),
        Event.ingestReply 0 (.fulfilled (some ⟨none, some 3⟩))]).loading = false ∧
    (run init [Event.fileChange (some ⟨"contract.pdf"⟩), Event.render, Event.click,
        Event.render, Event.uploadReply 0 (.fulfilled ⟨true, some "doc1"⟩),
        Event.ingestReply 0 (.fulfilled (some ⟨none, some 3⟩))]).navigations = [] := by
  decide

/-- C10, amended: for every attempt started by `handleUpload` with a file selected
and nothing else in flight, whose upload call was acknowledged with `ok`.  When
the ingest answer is an object without a `document_id`, or with an empty one,
the card does not fail: loading is cleared, the error text is empty, the
attempt is over and the answer is handed to the success callback, which
ignores it, so that no navigation to an analysis view is added.  When the
ingest answer is `null` or `undefined`, the success callback throws and the card
ends with the error text and loading cleared, again without a navigation.  An
answer with a non-empty `document_id` adds the navigation to
`/analysis/<document_id>`; conversely every answer for which `handleSuccess`
navigates is an object with a non-empty `document_id`, and the navigation goes
to `/analysis/<document_id>` carrying that answer. -/
theorem ingest_without_id (s : UploadCard) (f : File) (ack : UploadAck) (resp : IngestResp)
    (hfile : s.file = some f) (hidle : s.inflight = []) (hok : ack.ok = true)
    (hid : UploadPage.truthy resp.document_id = false) :
    ((ingestSettled (awaitingIngest s ack) 0 (.fulfilled (some resp))).error = "" ∧
      (ingestSettled (awaitingIngest s ack) 0 (.fulfilled (some resp))).loading = false ∧
      (ingestSettled (awaitingIngest s ack) 0 (.fulfilled (some resp))).inflight = [] ∧
      (ingestSettled (awaitingIngest s ack) 0 (.fulfilled (some resp))).delivered =
        s.delivered ++ [some resp] ∧
      (ingestSettled (awaitingIngest s ack) 0 (.fulfilled (some resp))).navigations =
        s.navigations) ∧
    ((ingestSettled (awaitingIngest s ack) 0 (.fulfilled none)).error =
        "Upload/analysis failed. Try again." ∧
      (ingestSettled (awaitingIngest s ack) 0 (.fulfilled none)).loading = false ∧
      (ingestSettled (awaitingIngest s ack) 0 (.fulfilled none)).inflight = [] ∧
      (ingestSettled (awaitingIngest s ack) 0 (.fulfilled none)).delivered =
        s.delivered ++ [none] ∧
      (ingestSettled (awaitingIngest s ack) 0 (.fulfilled none)).navigations =
        s.navigations) ∧
    (∀ (data : IngestResp) (id : String), data.document_id = some id → id ≠ "" →
      (ingestSettled (awaitingIngest s ack) 0 (.fulfilled (some data))).navigations =
          s.navigations ++ [{ path := "/analysis/" ++ id, analysis := data }] ∧
      (ingestSettled (awaitingIngest s ack) 0 (.fulfilled (some data))).error = "") ∧
    (∀ (body : Option IngestResp) (nav : UploadPage.Navigation),
      UploadPage.handleSuccess body = Except.ok (some nav) →
      ∃ data id, body = some data ∧ data.document_id = some id ∧ id ≠ "" ∧
        nav.path = "/analysis/" ++ id ∧ nav.analysis = data) := by
  have hw : awaitingIngest s ack =
      { s with error := "", loading := true,
               requests := s.requests ++ [Request.post_sanitize f,
                 Request.post_ingest ack.document_id "demo_tenant"],
               inflight := [Awaiting.ingest] } := by
    simp [awaitingIngest, handleUpload, hfile, hidle, uploadSettled, hok, uploadContract,
      ingestContract]
  have hignored : UploadPage.handleSuccess (some resp) = Except.ok none := by
    cases hd : resp.document_id with
    | none => simp [UploadPage.handleSuccess, hd]
    | some id =>
      rw [hd] at hid
      simp [UploadPage.handleSuccess, hd, hid]
  refine ⟨?_, ?_, ?_, ?_⟩
  · rw [hw]
    simp [ingestSettled, hignored]
  · rw [hw]
    simp [ingestSettled, UploadPage.handleSuccess, handleUpload_catch]
  · intro data id hd hne
    have hnav : UploadPage.handleSuccess (some data) =
        Except.ok (some { path := "/analysis/" ++ id, analysis := data }) := by
      simp [UploadPage.handleSuccess, hd, UploadPage.truthy, hne]
    rw [hw]
    simp [ingestSettled, hnav]
  · intro body nav hnav
    cases body with
    | none => simp [UploadPage.handleSuccess] at hnav
    | some data =>
      unfold UploadPage.handleSuccess at hnav
      cases hd : data.document_id with
      | none => simp [hd] at hnav
      | some id =>
        simp only [hd, UploadPage.truthy] at hnav
        by_cases hempty : id = ""
        · simp [hempty] at hnav
        · simp [hempty] at hnav
          exact ⟨data, id, rfl, hd, hempty, by rw [← hnav], by rw [← hnav]⟩

/-- The amended C10 on an attempt whose ingest answer is `{chunks: 3}`. -/
theorem ingest_without_id_witness :
    (handleFileChange init (some ⟨"contract.pdf"⟩)).file = some ⟨"contract.pdf"⟩ ∧
    (handleFileChange init (some ⟨"contract.pdf"⟩)).inflight = [] ∧
    UploadPage.truthy (⟨none, some 3⟩ : IngestResp).document_id = false ∧
    (ingestSettled (awaitingIngest (handleFileChange init (some ⟨"contract.pdf"⟩))
        ⟨true, some "doc1"⟩) 0 (.fulfilled (some ⟨none, some 3⟩))).error = "" ∧
    (ingestSettled (awaitingIngest (handleFileChange init (some ⟨"contract.pdf"⟩))
        ⟨true, some "doc1"⟩) 0 (.fulfilled none)).error =
      "Upload/analysis failed. Try again." :=
  ⟨rfl, rfl, rfl,
   (ingest_without_id (handleFileChange init (some ⟨"contract.pdf"⟩)) ⟨"contract.pdf"⟩
      ⟨true, some "doc1"⟩ ⟨none, some 3⟩ rfl rfl rfl rfl).1.1,
   (ingest_without_id (handleFileChange init (some ⟨"contract.pdf"⟩)) ⟨"contract.pdf"⟩
      ⟨true, some "doc1"⟩ ⟨none, some 3⟩ rfl rfl rfl rfl).2.1.1⟩

end UploadCard

/-! ## The chat -/

/-- `!input.trim()` holds exactly for the blank texts. -/
theorem jsTrim_isEmpty (t : String) : (jsTrim t).data.isEmpty = isBlank t := by
  unfold jsTrim isBlank
  rw [Bool.eq_iff_iff, List.isEmpty_iff, List.all_eq_true]
  simp only [List.reverse_eq_nil_iff]
  rw [List.dropWhile_eq_nil_iff]
  constructor
  · intro h
    have h2 : List.dropWhile isJsWhiteSpace (List.dropWhile isJsWhiteSpace t.data) = [] := by
      rw [List.dropWhile_eq_nil_iff]
      intro x hx
      exact h x (List.mem_reverse.mpr hx)
    rw [List.dropWhile_idempotent] at h2
    exact List.dropWhile_eq_nil_iff.mp h2
  · intro h x hx
    have hnil : List.dropWhile isJsWhiteSpace t.data = [] := List.dropWhile_eq_nil_iff.mpr h
    rw [hnil] at hx
    simp at hx

namespace AgentChat

theorem sendMessage_blank (s : AgentChat) (h : isBlank s.input = true) : sendMessage s = s := by
  simp [sendMessage, jsTrim_isEmpty, h]

theorem sendMessage_nonblank (s : AgentChat) (h : isBlank s.input = false) :
    sendMessage s =
      { s with messages := s.messages ++ [{ origin := "user", text := s.input }],
               inflight := s.inflight ++ [s.messages ++ [{ origin := "user", text := s.input }]],
               requests := s.requests ++ [Request.get_recommend s.docId] } := by
  simp [sendMessage, jsTrim_isEmpty, h, getRecommendations]

theorem agentEntry_eq (r : Settled Advice) :
    agentEntry r = { origin := "agent", text := replyTextNonEmpty r } := by
  rcases r with ⟨⟨_ | v⟩⟩ | e
  · rfl
  · by_cases hv : v = "" <;> simp [agentEntry, replyTextNonEmpty, hv]
  · rfl

/-- C8: what the code does for two calls with non-blank texts on a new
conversation.  Made in turn, the second call after the first reply has settled,
they give the transcript of the claim: greeting, user1, reply1-or-error1,
user2, reply2-or-error2.  Made one over the other, the second call before the
first reply resolves, they first give greeting, user1, user2; then each reply
writes the transcript its own call had captured followed by its entry, which
removes what was appended in between.  When the first reply settles first the
transcript becomes greeting, user1, reply1 (user2 is removed) and ends as
greeting, user1, user2, reply2 (reply1 is removed); when the second reply
settles first it becomes greeting, user1, user2, reply2 and ends as greeting,
user1, reply1 (user2 and reply2 are removed).  Neither end is the transcript of
the claim. -/
theorem sendMessage_overlap (d t1 t2 : String) (r1 r2 : Settled Advice)
    (h1 : isBlank t1 = false) (h2 : isBlank t2 = false) :
    (replySettled (twoCallsInTurn d t1 t2 r1) 0 r2).messages =
      [greeting, ⟨"user", t1⟩, agentEntry r1, ⟨"user", t2⟩, agentEntry r2] ∧
    (twoCalls d t1 t2).messages = [greeting, ⟨"user", t1⟩, ⟨"user", t2⟩] ∧
    (replySettled (twoCalls d t1 t2) 0 r1).messages =
      [greeting, ⟨"user", t1⟩, agentEntry r1] ∧
    (replySettled (replySettled (twoCalls d t1 t2) 0 r1) 0 r2).messages =
      [greeting, ⟨"user", t1⟩, ⟨"user", t2⟩, agentEntry r2] ∧
    (replySettled (twoCalls d t1 t2) 1 r2).messages =
      [greeting, ⟨"user", t1⟩, ⟨"user", t2⟩, agentEntry r2] ∧
    (replySettled (replySettled (twoCalls d t1 t2) 1 r2) 0 r1).messages =
      [greeting, ⟨"user", t1⟩, agentEntry r1] ∧
    (replySettled (replySettled (twoCalls d t1 t2) 0 r1) 0 r2).messages ≠
      [greeting, ⟨"user", t1⟩, agentEntry r1, ⟨"user", t2⟩, agentEntry r2] ∧
    (replySettled (replySettled (twoCalls d t1 t2) 1 r2) 0 r1).messages ≠
      [greeting, ⟨"user", t1⟩, agentEntry r1, ⟨"user", t2⟩, agentEntry r2] := by
  have hfirst : sendMessage (onChange (init d) t1) =
      { init d with messages := [greeting, ⟨"user", t1⟩], input := t1,
                    inflight := [[greeting, ⟨"user", t1⟩]],
                    requests := [Request.get_recommend d] } := by
    rw [sendMessage_nonblank _ (by simpa [onChange] using h1)]
    simp [onChange, init]
  have htwo : twoCalls d t1 t2 =
      { init d with messages := [greeting, ⟨"user", t1⟩, ⟨"user", t2⟩], input := t2,
                    inflight := [[greeting, ⟨"user", t1⟩],
                                 [greeting, ⟨"user", t1⟩, ⟨"user", t2⟩]],
                    requests := [Request.get_recommend d, Request.get_recommend d] } := by
    unfold twoCalls
    rw [hfirst, sendMessage_nonblank _ (by simpa [onChange] using h2)]
    simp [onChange, init]
  have hturn : twoCallsInTurn d t1 t2 r1 =
      { init d with messages := [greeting, ⟨"user", t1⟩, agentEntry r1, ⟨"user", t2⟩],
                    input := t2,
                    inflight := [[greeting, ⟨"user", t1⟩, agentEntry r1, ⟨"user", t2⟩]],
                    requests := [Request.get_recommend d, Request.get_recommend d] } := by
    unfold twoCallsInTurn
    rw [hfirst]
    have hsettled : replySettled
        { init d with messages := [greeting, ⟨"user", t1⟩], input := t1,
                      inflight := [[greeting, ⟨"user", t1⟩]],
                      requests := [Request.get_recommend d] } 0 r1 =
        { init d with messages := [greeting, ⟨"user", t1⟩, agentEntry r1], input := "",
                      inflight := [], requests := [Request.get_recommend d] } := by
      simp [replySettled, init]
    rw [hsettled, sendMessage_nonblank _ (by simpa [onChange] using h2)]
    simp [onChange, init]
  have hA : (replySettled (replySettled (twoCalls d t1 t2) 0 r1) 0 r2).messages =
      [greeting, ⟨"user", t1⟩, ⟨"user", t2⟩, agentEntry r2] := by
    rw [htwo]
    simp [replySettled, init]
  have hB : (replySettled (replySettled (twoCalls d t1 t2) 1 r2) 0 r1).messages =
      [greeting, ⟨"user", t1⟩, agentEntry r1] := by
    rw [htwo]
    simp [replySettled, init]
  refine ⟨?_, ?_, ?_, hA, ?_, hB, ?_, ?_⟩
  · rw [hturn]
    simp [replySettled, init]
  · rw [htwo]
  · rw [htwo]
    simp [replySettled, init]
  · rw [htwo]
    simp [replySettled, init]
  · rw [hA]
    intro heq
    have hlen := congrArg List.length heq
    simp at hlen
  · rw [hB]
    intro heq
    have hlen := congrArg List.length heq
    simp at hlen

/-- C8 on the texts `first` and `second` with both requests answered, the first
reply settling first: the final transcript is greeting, `first`, `second`,
second advice, and the first advice is gone. -/
theorem sendMessage_overlap_witness :
    isBlank "first" = false ∧ isBlank "second" = false ∧
    (replySettled (replySettled (twoCalls "doc1" "first" "second") 0
        (.fulfilled ⟨some "advice 1"⟩)) 0 (.fulfilled ⟨some "advice 2"⟩)).messages =
      [greeting, ⟨"user", "first"⟩, ⟨"user", "second"⟩,
        agentEntry (.fulfilled ⟨some "advice 2"⟩)] ∧
    (replySettled (replySettled (twoCalls "doc1" "first" "second") 0
        (.fulfilled ⟨some "advice 1"⟩)) 0 (.fulfilled ⟨some "advice 2"⟩)).messages ≠
      [greeting, ⟨"user", "first"⟩, agentEntry (.fulfilled ⟨some "advice 1"⟩),
        ⟨"user", "second"⟩, agentEntry (.fulfilled ⟨some "advice 2"⟩)] :=
  ⟨by decide, by decide,
   (sendMessage_overlap "doc1" "first" "second" (.fulfilled ⟨some "advice 1"⟩)
      (.fulfilled ⟨some "advice 2"⟩) (by decide) (by decide)).2.2.2.1,
   (sendMessage_overlap "doc1" "first" "second" (.fulfilled ⟨some "advice 1"⟩)
      (.fulfilled ⟨some "advice 2"⟩) (by decide) (by decide)).2.2.2.2.2.2.1⟩

/-- C9 fails on the text `hi` when the reply carries the empty suggestion:
the reference puts the suggestion text, the empty string, in the agent entry,
and the code puts the generic acknowledgment there. -/
theorem sendMessage_empty_suggestion_counterexample :
    sendMessageObserved (onChange (init "doc1") "hi") (.fulfilled ⟨some ""⟩) ≠
      sendMessageSpec replyTextSpec "doc1" [greeting] "hi" (.fulfilled ⟨some ""⟩) ∧
    (sendMessageObserved (onChange (init "doc1") "hi") (.fulfilled ⟨some ""⟩)).afterReply =
      [greeting, ⟨"user", "hi"⟩, ⟨"agent", "Here’s my recommendation."⟩] ∧
    (sendMessageSpec replyTextSpec "doc1" [greeting] "hi" (.fulfilled ⟨some ""⟩)).afterReply =
      [greeting, ⟨"user", "hi"⟩, ⟨"agent", ""⟩] := by
  decide

/-- C9, amended: for every chat with no request in flight, with transcript `T`
and input text `t`, `sendMessage` equals the reference definition in which an
empty suggestion counts as absent: on a blank `t` the transcript stays `T` and
no request is issued; otherwise the transcript is `T` followed by the user
entry before the one request is issued, and `T`, the user entry and the agent
entry after it settles, the agent text being the suggestion when present and
not empty, the generic acknowledgment when absent or empty, and the error text
when the request fails.  `T` is a prefix of the transcript at both moments, and
the user entry of a non-blank `t` is in the final transcript. -/
theorem sendMessage_refines (s : AgentChat) (r : Settled Advice) (hidle : s.inflight = []) :
    sendMessageObserved s r =
      sendMessageSpec replyTextNonEmpty s.docId s.messages s.input r ∧
    s.messages <+: (sendMessage s).messages ∧
    s.messages <+: (replySettled (sendMessage s) 0 r).messages ∧
    (isBlank s.input = false →
      (⟨"user", s.input⟩ : Entry) ∈ (replySettled (sendMessage s) 0 r).messages) := by
  cases hb : isBlank s.input with
  | true =>
    have hsend : sendMessage s = s := sendMessage_blank s hb
    have hreply : replySettled s 0 r = s := by simp [replySettled, hidle]
    refine ⟨?_, ?_, ?_, ?_⟩
    · simp [sendMessageObserved, sendMessageSpec, hb, hsend, hreply]
    · rw [hsend]
    · rw [hsend, hreply]
    · intro h; cases h
  | false =>
    have hsend := sendMessage_nonblank s hb
    have hreply : (replySettled (sendMessage s) 0 r).messages =
        s.messages ++ [⟨"user", s.input⟩, ⟨"agent", replyTextNonEmpty r⟩] := by
      rw [hsend]
      simp [replySettled, hidle, agentEntry_eq]
    refine ⟨?_, ?_, ?_, ?_⟩
    · simp only [sendMessageObserved, sendMessageSpec, hb, hreply]
      rw [hsend]
      simp
    · rw [hsend]
      exact ⟨_, rfl⟩
    · rw [hreply]
      exact ⟨_, rfl⟩
    · intro _
      rw [hreply]
      simp

/-- The amended C9 on a fresh chat and the text `hi`. -/
theorem sendMessage_refines_witness :
    (onChange (init "doc1") "hi").inflight = [] ∧
    sendMessageObserved (onChange (init "doc1") "hi") (.fulfilled ⟨some "Shorten the term."⟩) =
      sendMessageSpec replyTextNonEmpty "doc1" [greeting] "hi"
        (.fulfilled ⟨some "Shorten the term."⟩) :=
  ⟨rfl, (sendMessage_refines (onChange (init "doc1") "hi")
      (.fulfilled ⟨some "Shorten the term."⟩) rfl).1⟩

end AgentChat

end ContractAnalysis
